import Mathlib

/-
Verification of the codec-reconciliation and dataset-binding core of
kraken's `kraken/lib/train.py` (the only source file of the repository).

The embedding below follows the source closely:

* `RecognitionModel.setup` (train.py lines 427-493) is embedded as `setup`,
  with the load-without-append branch factored into `reuseBranch` and the
  final validation-set encoding (line 477) into `finishSetup`.
* `RecognitionModel._build_dataset` (lines 350-371) is embedded as
  `_build_dataset`, and `_star_fun` (lines 55-62) as `_star_fun`.
* The codec (`PytorchCodec`, from kraken/lib/codec.py) and the dataset
  classes (kraken/lib/dataset) are collaborators whose code is not part of
  the sources; they are modelled from the specification (sections 3, 4.1,
  5 and the scenarios of section 8), as marked on each definition.

Python-level behaviour that the source exhibits and that matters here is
modelled explicitly:

* Exceptions become an `error` field; because `setup` mutates `self.nn`
  and the datasets in place before some of its raises, `setup` returns a
  `SetupOutcome` holding both the post-state and the raised error, so
  mutations that precede a raise stay observable.
* Line 433 reads the function-local variable `spec` before any assignment
  to it (the assignment on that same line makes `spec` local to `setup`),
  which raises `UnboundLocalError` in Python; this is the
  `unboundLocalSpec` error.
* Line 456 reads the name `nn`, which is neither a local of `setup` nor a
  module-level name of train.py, so Python raises `NameError`; this is the
  `nameErrorNN` error.
* Truthiness tests (`if self.append:`, `self.codec and ...`) are modelled
  on `Option` values; `if self.append:` is false for `None` and for `0`.
-/

namespace Kraken

/-- Lexicographic comparison of two lists of characters. -/
def charListLe : List Char → List Char → Bool
  | [], _ => true
  | _ :: _, [] => false
  | a :: as, b :: bs => if a = b then charListLe as bs else decide (a < b)

/-- Lexicographic order on strings. The spec (section 4.1) requires new
labels to be assigned "in a stable, deterministic order (e.g.
lexicographic)"; this is that order. -/
def strLe (a b : String) : Bool := charListLe a.data b.data

/-- Insertion of a string into a list, in front of the first element it
compares less-or-equal to. -/
def insertSorted (a : String) : List String → List String
  | [] => [a]
  | b :: bs => if strLe a b then a :: b :: bs else b :: insertSorted a bs

/-- Insertion sort of a list of strings by `strLe`. -/
def sortStrings : List String → List String
  | [] => []
  | a :: as => insertSorted a (sortStrings as)

/-- Removal of duplicate strings, keeping one occurrence of each. The
callers below always sort afterwards, so the retention order is
irrelevant; only membership matters. -/
def dedupStr : List String → List String
  | [] => []
  | a :: as =>
    let d := dedupStr as
    if d.contains a then d else a :: d

/-- Consecutive single-label assignment: cluster `i` of the list receives
the label sequence `[start + i]`. -/
def assignLabels (start : Nat) : List String → List (String × List Nat)
  | [] => []
  | s :: ss => (s, [start]) :: assignLabels (start + 1) ss

/-- Maximum label occurring in a `c2l` association list (`0` when no label
occurs). -/
def labelsMax : List (String × List Nat) → Nat
  | [] => 0
  | p :: ps => Nat.max (p.2.foldr Nat.max 0) (labelsMax ps)

/-- Concatenation of all label sequences of a `c2l` association list. -/
def labelsOf (ps : List (String × List Nat)) : List Nat :=
  ps.foldr (fun p acc => p.2 ++ acc) []

/-- Modelled from the spec: `PytorchCodec` of kraken/lib/codec.py, whose
source is not in the repository sources. Spec section 3: `c2l` maps a
grapheme-cluster string to an ordered sequence of labels; the `strict`
flag controls whether encoding an unknown grapheme fails. `c2l` is kept
as an association list in label order. -/
structure PytorchCodec where
  c2l : List (String × List Nat)
  strict : Bool
deriving DecidableEq

/-- Keys of the `c2l` mapping, i.e. the codec's known grapheme clusters. -/
def PytorchCodec.keys (c : PytorchCodec) : List String := c.c2l.map Prod.fst

/-- Modelled from the spec (section 3): the highest integer label
currently assigned. -/
def PytorchCodec.max_label (c : PytorchCodec) : Nat := labelsMax c.c2l

/-- Modelled from the spec (section 4.1): `add_labels` returns a new codec
whose `c2l` is the original plus an entry for each new cluster, each
assigned a fresh integer starting at `max_label + 1`, in lexicographic
order (the spec's recommended stable deterministic order; Scenario B of
section 8 fixes the single-element case). -/
def PytorchCodec.add_labels (c : PytorchCodec) (newChars : List String) : PytorchCodec :=
  { c2l := c.c2l ++ assignLabels (c.max_label + 1) (sortStrings (dedupStr newChars)),
    strict := c.strict }

/-- Modelled from the spec (section 3, Codec lifecycle): the codec built
fresh from a training corpus's observed alphabet, "labels assigned in a
fixed deterministic order" from `0`; the strict flag starts unset. This
is what `dataset.encode(None)` builds. -/
def codecFromAlphabet (alphabet : List String) : PytorchCodec :=
  { c2l := assignLabels 0 (sortStrings (dedupStr alphabet)), strict := false }

/-- Modelled from the spec (section 4.1 and Scenario C of section 8):
`merge` keeps the clusters of `c` that also occur in `other` (in `c`'s
order, renumbered contiguously from `0`), appends the clusters of `other`
that `c` lacks, and returns together with the merged codec the list of
labels of `c`'s clusters that do not occur in `other` (the rows to delete
from the projection layer). Scenario C: `{a:[0],b:[1],x:[2]}` merged with
a codec over `{a,b,c}` gives a 3-entry codec over `{a,b,c}` and deleted
indices `[2]`. -/
def PytorchCodec.merge (c other : PytorchCodec) : PytorchCodec × List Nat :=
  let survivors := c.c2l.filter (fun p => other.keys.contains p.1)
  let freshClusters := other.keys.filter (fun s => ! c.keys.contains s)
  let merged : PytorchCodec :=
    { c2l := assignLabels 0 (survivors.map Prod.fst ++ freshClusters),
      strict := c.strict }
  let deleted := labelsOf (c.c2l.filter (fun p => ! other.keys.contains p.1))
  (merged, deleted)

/-- Modelled from the spec: the recognition dataset classes of
kraken/lib/dataset (not in the repository sources), reduced to what the
reconciliation protocol observes: the alphabet of distinct grapheme
clusters of its ground truth (section 3, "Alphabet") and the codec it was
last encoded against. -/
structure GroundTruthDataset where
  alphabet : List String
  codec : Option PytorchCodec
deriving DecidableEq

/-- Modelled from the spec (sections 4.1 and 3): `dataset.encode(codec)`
encodes the ground truth against `codec`; with `codec=None` a codec is
built from the dataset's own alphabet. Encoding against a strict codec
raises `KrakenEncodeException` as soon as some observed grapheme cluster
is absent from the codec (section 4.1, `encode`); against a non-strict
codec unmatched graphemes are merely reported, not raised. -/
def GroundTruthDataset.encode (d : GroundTruthDataset) (c : Option PytorchCodec) :
    Except Unit GroundTruthDataset :=
  match c with
  | none => .ok { d with codec := some (codecFromAlphabet d.alphabet) }
  | some co =>
    if co.strict && d.alphabet.any (fun a => ! co.keys.contains a) then .error ()
    else .ok { d with codec := some co }

/-- Codec the dataset currently holds; after a successful
`encode` this is the codec that was passed (or built). -/
def GroundTruthDataset.resolvedCodec (d : GroundTruthDataset) : PytorchCodec :=
  d.codec.getD (codecFromAlphabet d.alphabet)

/-- The network, reduced to what `setup` observes of
`vgsl.TorchVGSLModel`: its attached codec and the rows of its output
projection layer. A row is `some i` when it is (a survivor of) row `i` of
the layer as it was when the model was loaded, and `none` when it was
freshly initialised by a resize. -/
structure TorchVGSLModel where
  codec : PytorchCodec
  rows : List (Option Nat)
deriving DecidableEq

/-- Attaches a codec to the model (`nn.add_codec`). -/
def TorchVGSLModel.add_codec (m : TorchVGSLModel) (c : PytorchCodec) : TorchVGSLModel :=
  { m with codec := c }

/-- The external `resize_output(width, del_indices)` contract of spec
section 6: rows at `del` (by current index) are removed, all other rows
keep their relative order, and the layer is brought to `width` rows by
appending freshly initialised rows. -/
def TorchVGSLModel.resize_output (m : TorchVGSLModel) (width : Nat) (del : List Nat) :
    TorchVGSLModel :=
  let kept := (m.rows.enum.filter (fun p => ! del.contains p.1)).map Prod.snd
  { m with rows := (kept ++ List.replicate (width - kept.length) none).take width }

/-- The attributes of `RecognitionModel` that `setup` reads and writes:
the loaded network (`self.nn`, `None` when training from scratch), the
append point, the explicitly supplied codec (`self.codec`), the resize
policy string, and the training and validation datasets. -/
structure RecognitionModel where
  nn : Option TorchVGSLModel
  append : Option Nat
  codec : Option PytorchCodec
  resize : String
  train_set : GroundTruthDataset
  val_set : GroundTruthDataset
deriving DecidableEq

/-- Errors `setup` can raise. `krakenInput` carries the alphabet
difference named by the message of line 449; `valueError` carries the
offending resize value of line 467; `krakenEncode` is an uncaught
`KrakenEncodeException` from a dataset encode; `unboundLocalSpec` and
`nameErrorNN` are the Python name-resolution errors of lines 433 and 456
described in the header comment. -/
inductive SetupError
  | unboundLocalSpec
  | nameErrorNN
  | krakenInput (diff : List String)
  | valueError (resize : String)
  | krakenEncode
deriving DecidableEq

/-- Result of a `setup` run: the post-state (in-place mutations included,
whether or not an exception was raised) and the raised exception, if
any. -/
structure SetupOutcome where
  final : RecognitionModel
  error : Option SetupError
deriving DecidableEq

/-- Line 440: `codec = self.codec if (self.codec and self.resize ==
'both') else self.nn.codec`. -/
def effectiveCodec (explicit : Option PytorchCodec) (resize : String)
    (nnCodec : PytorchCodec) : PytorchCodec :=
  match explicit with
  | some c => if resize == "both" then c else nnCodec
  | none => nnCodec

/-- Line 477: `self.val_set.dataset.encode(self.nn.codec)`, performed in
every branch that falls through the reconciliation; a
`KrakenEncodeException` here propagates out of `setup`. The statements
after line 477 (one-channel-mode warning, metadata updates, wrapper
construction, lines 479-493) do not touch the codec, the datasets or the
output layer and are not modelled. -/
def finishSetup (st : RecognitionModel) (nn : TorchVGSLModel) : SetupOutcome :=
  match st.val_set.encode (some nn.codec) with
  | .ok vs => { final := { st with val_set := vs }, error := none }
  | .error _ => { final := st, error := some SetupError.krakenEncode }

/-- Lines 442-467 of the `elif self.model:` branch, parameterized by the
codec selected on line 440 (already made strict, reflecting the in-place
`codec.strict = True` of line 442) and by whether that codec was the
explicitly supplied one (`useExplicit`); when it was not, the strict-flag
mutation hit the loaded model's own codec, so the model carries the
strictified codec from here on. -/
def reuseCore (st : RecognitionModel) (nn0 : TorchVGSLModel)
    (codec1 : PytorchCodec) (useExplicit : Bool) : SetupOutcome :=
  let nn1 : TorchVGSLModel := if useExplicit then nn0 else { nn0 with codec := codec1 }
  match st.train_set.encode (some codec1) with  -- line 445
  | .ok ts1 => finishSetup { st with nn := some nn1, train_set := ts1 } nn1
  | .error _ =>
    -- line 447: set difference between training alphabet and codec keys
    let alphaDiff := st.train_set.alphabet.filter (fun a => ! codec1.keys.contains a)
    if st.resize == "fail" then
      -- line 449
      { final := { st with nn := some nn1 },
        error := some (SetupError.krakenInput alphaDiff) }
    else if st.resize == "add" then
      -- lines 450-456
      let codec2 := codec1.add_labels alphaDiff
      let nn2 := (nn1.add_codec codec2).resize_output (codec2.max_label + 1) []
      -- line 456 reads the undefined name `nn`
      { final := { st with nn := some nn2 }, error := some SetupError.nameErrorNN }
    else if st.resize == "both" then
      -- lines 457-465; `encode(None)` (line 459) always succeeds, building
      -- the codec from the dataset's own alphabet
      let built := codecFromAlphabet st.train_set.alphabet
      let tsB : GroundTruthDataset := { st.train_set with codec := some built }
      let md := codec1.merge built  -- line 460, merging with the built codec
      let nn2 := nn1.add_codec md.1  -- line 461
      match tsB.encode (some md.1) with  -- line 464
      | .ok ts2 =>
        let nn3 := nn2.resize_output (md.1.max_label + 1) md.2  -- line 465
        finishSetup { st with nn := some nn3, train_set := ts2 } nn3
      | .error _ =>
        { final := { st with nn := some nn2, train_set := tsB },
          error := some SetupError.krakenEncode }
    else
      -- lines 466-467
      { final := { st with nn := some nn1 },
        error := some (SetupError.valueError st.resize) }

/-- Lines 438-467, the `elif self.model:` branch of `setup`: a pretrained
model was loaded and no append point is set. Line 440 selects the
effective codec (the explicitly supplied one only under policy `both`,
the loaded model's own otherwise) and line 442 makes it strict in
place. -/
def reuseBranch (st : RecognitionModel) (nn0 : TorchVGSLModel) : SetupOutcome :=
  reuseCore st nn0 { effectiveCodec st.codec st.resize nn0.codec with strict := true }
    (st.codec.isSome && (st.resize == "both"))

/-- `RecognitionModel.setup`, lines 427-477. `if self.append:` is Python
truthiness on an `Optional[int]`: false for `None` and for `0`. -/
def setup (st : RecognitionModel) : SetupOutcome :=
  if st.append.getD 0 != 0 then
    -- lines 430-437, the append branch
    match st.train_set.encode st.codec with  -- line 431
    | .error _ => { final := st, error := some SetupError.krakenEncode }
    | .ok ts =>
      -- line 433 raises UnboundLocalError (local `spec` read before
      -- assignment) before any model surgery happens
      { final := { st with train_set := ts }, error := some SetupError.unboundLocalSpec }
  else
    match st.nn with
    | some nn0 => reuseBranch st nn0
    | none =>
      -- lines 468-475, training a new model from scratch
      match st.train_set.encode st.codec with  -- line 469
      | .error _ => { final := st, error := some SetupError.krakenEncode }
      | .ok ts =>
        let c := ts.resolvedCodec
        -- lines 470-475: a fresh network with max_label + 1 output rows,
        -- freshly initialised, carrying the training codec
        let nnNew : TorchVGSLModel :=
          { codec := c, rows := List.replicate (c.max_label + 1) none }
        finishSetup { st with train_set := ts, nn := some nnNew } nnNew

/-- A ground-truth item as the dataset parser sees it. Modelled from the
spec (section 5): parsing an item either yields a structured sample or
fails recoverably with a missing-file error (`FileNotFoundError`) or a
malformed-input error (`KrakenInputException`). Samples are abstracted to
numbers. -/
inductive Item
  | good (sample : Nat)
  | missingFile
  | malformed
deriving DecidableEq

/-- The two recoverable parse-failure kinds of spec section 5. -/
inductive ParseError
  | fileNotFound
  | krakenInput
deriving DecidableEq

/-- Modelled from the spec (section 5): `dataset.parse` on one
ground-truth item. -/
def datasetParse (it : Item) : Except ParseError Nat :=
  match it with
  | .good s => .ok s
  | .missingFile => .error .fileNotFound
  | .malformed => .error .krakenInput

/-- Lines 55-62: `_star_fun` calls the parse function and catches exactly
`FileNotFoundError` and `KrakenInputException`, returning `None` for
both. -/
def _star_fun (it : Item) : Option Nat :=
  match datasetParse it with
  | .ok s => some s
  | .error _ => none

/-- The sample extracted from an item when it parses. -/
def itemSample (it : Item) : Option Nat :=
  match it with
  | .good s => some s
  | _ => none

/-- Lines 366-370, the sequential loop of `_build_dataset`: each item is
handed to `dataset.add`, and only `KrakenInputException` is caught (and
the item dropped); `dataset.add` parses the raw item (modelled from the
spec, section 5), so a missing file raises `FileNotFoundError`, which
this loop does not catch. -/
def seqLoop (acc : List Nat) : List Item → Except ParseError (List Nat)
  | [] => .ok acc
  | it :: rest =>
    match datasetParse it with
    | .ok s => seqLoop (acc ++ [s]) rest
    | .error .krakenInput => seqLoop acc rest
    | .error .fileNotFound => .error .fileNotFound

/-- Lines 360-364, the worker-pool loop of `_build_dataset`: each item
goes through `_star_fun` and is added only when a sample came back.
(`imap_unordered` makes the completion order unspecified; it is modelled
here as the submission order, which section 5 says callers must not rely
on anyway.) -/
def parLoop (acc : List Nat) : List Item → List Nat
  | [] => acc
  | it :: rest =>
    match _star_fun it with
    | some s => parLoop (acc ++ [s]) rest
    | none => parLoop acc rest

/-- Lines 350-371, `RecognitionModel._build_dataset`, reduced to its
parsing loop: the guard of line 359 is `(self.num_workers and
self.num_workers > 1) and self.format_type != 'binary'` (for a
non-negative integer, `num_workers and num_workers > 1` is truthy exactly
when `num_workers > 1`). -/
def _build_dataset (numWorkers : Nat) (formatType : String) (items : List Item) :
    Except ParseError (List Nat) :=
  if ((numWorkers != 0) && decide (numWorkers > 1)) && (formatType != "binary") then
    .ok (parLoop [] items)
  else
    seqLoop [] items


/-- The components of a `setup` outcome that the reconciliation protocol
is about: the raised error, the final network, and the final training and
validation datasets (everything except the mirror of the `self.codec`
attribute itself). -/
def outcomeView (o : SetupOutcome) :
    Option SetupError × Option TorchVGSLModel × GroundTruthDataset × GroundTruthDataset :=
  (o.error, o.final.nn, o.final.train_set, o.final.val_set)

-- Decidable equality for `Except` results, used to settle concrete runs
-- by `decide`.
deriving instance DecidableEq for Except

/-! Helper lemmas about the list plumbing. -/

theorem contains_iff {a : String} {l : List String} : l.contains a = true ↔ a ∈ l :=
  List.elem_iff

theorem mem_insertSorted {a b : String} {l : List String} :
    a ∈ insertSorted b l ↔ a = b ∨ a ∈ l := by
  induction l with
  | nil => simp [insertSorted]
  | cons c cs ih =>
    simp only [insertSorted]
    split
    · simp
    · simp only [List.mem_cons, ih]
      tauto

theorem mem_sortStrings {a : String} {l : List String} :
    a ∈ sortStrings l ↔ a ∈ l := by
  induction l with
  | nil => simp [sortStrings]
  | cons b bs ih => simp [sortStrings, mem_insertSorted, ih]

theorem mem_dedupStr {a : String} {l : List String} :
    a ∈ dedupStr l ↔ a ∈ l := by
  induction l generalizing a with
  | nil => simp [dedupStr]
  | cons b bs ih =>
    simp only [dedupStr]
    split
    · rename_i h
      rw [contains_iff, ih] at h
      simp only [ih, List.mem_cons]
      constructor
      · exact Or.inr
      · rintro (rfl | hm)
        · exact h
        · exact hm
    · simp [List.mem_cons, ih]

theorem map_fst_assignLabels (n : Nat) (l : List String) :
    (assignLabels n l).map Prod.fst = l := by
  induction l generalizing n with
  | nil => simp [assignLabels]
  | cons s ss ih => simp [assignLabels, ih]

theorem mem_keys_codecFromAlphabet {a : String} {alphabet : List String} :
    a ∈ (codecFromAlphabet alphabet).keys ↔ a ∈ alphabet := by
  simp [codecFromAlphabet, PytorchCodec.keys, map_fst_assignLabels,
    mem_sortStrings, mem_dedupStr]

theorem mem_labelsOf {x : Nat} {ps : List (String × List Nat)} :
    x ∈ labelsOf ps ↔ ∃ p ∈ ps, x ∈ p.2 := by
  induction ps with
  | nil => simp [labelsOf]
  | cons p ps ih =>
    simp only [labelsOf, List.foldr_cons, List.mem_append] at *
    simp [ih]

theorem mem_merge_keys {c other : PytorchCodec} {a : String}
    (h : a ∈ other.keys) : a ∈ (PytorchCodec.merge c other).1.keys := by
  simp only [PytorchCodec.merge, PytorchCodec.keys, map_fst_assignLabels,
    List.mem_append]
  by_cases hc : a ∈ c.keys
  · left
    simp only [PytorchCodec.keys, List.mem_map] at hc
    obtain ⟨p, hp, rfl⟩ := hc
    refine List.mem_map.mpr ⟨p, List.mem_filter.mpr ⟨hp, ?_⟩, rfl⟩
    exact contains_iff.mpr h
  · right
    refine List.mem_filter.mpr ⟨h, ?_⟩
    have hcf : c.keys.contains a = false := by
      cases hcc : c.keys.contains a
      · rfl
      · exact absurd (contains_iff.mp hcc) hc
    show (! c.keys.contains a) = true
    rw [hcf]
    rfl


/-! Reduction lemmas for the embedded operations. -/

theorem encode_none (d : GroundTruthDataset) :
    d.encode none = .ok { d with codec := some (codecFromAlphabet d.alphabet) } := rfl

theorem encode_some_ok (d : GroundTruthDataset) (co : PytorchCodec)
    (h : (d.alphabet.any fun a => ! co.keys.contains a) = false) :
    d.encode (some co) = .ok { d with codec := some co } := by
  simp only [GroundTruthDataset.encode, h, Bool.and_false, Bool.false_eq_true,
    if_false]

theorem encode_some_ok_nonstrict (d : GroundTruthDataset) (co : PytorchCodec)
    (h : co.strict = false) :
    d.encode (some co) = .ok { d with codec := some co } := by
  simp [GroundTruthDataset.encode, h]

theorem encode_some_error (d : GroundTruthDataset) (co : PytorchCodec)
    (hs : co.strict = true)
    (h : (d.alphabet.any fun a => ! co.keys.contains a) = true) :
    d.encode (some co) = .error () := by
  simp only [GroundTruthDataset.encode, hs, h, Bool.and_self, if_true]

theorem finishSetup_final_nn (st : RecognitionModel) (nn : TorchVGSLModel) :
    (finishSetup st nn).final.nn = st.nn := by
  unfold finishSetup
  cases st.val_set.encode (some nn.codec) <;> simp

theorem finishSetup_final_train_set (st : RecognitionModel) (nn : TorchVGSLModel) :
    (finishSetup st nn).final.train_set = st.train_set := by
  unfold finishSetup
  cases st.val_set.encode (some nn.codec) <;> simp

theorem finishSetup_of_ok (st : RecognitionModel) (nn : TorchVGSLModel)
    (vs : GroundTruthDataset) (h : st.val_set.encode (some nn.codec) = .ok vs) :
    finishSetup st nn = { final := { st with val_set := vs }, error := none } := by
  unfold finishSetup
  rw [h]

theorem finishSetup_of_error (st : RecognitionModel) (nn : TorchVGSLModel)
    (h : st.val_set.encode (some nn.codec) = .error ()) :
    finishSetup st nn = { final := st, error := some SetupError.krakenEncode } := by
  unfold finishSetup
  rw [h]

theorem setup_eq_reuse (st : RecognitionModel) (nn0 : TorchVGSLModel)
    (hap : st.append = none) (hnn : st.nn = some nn0) :
    setup st = reuseBranch st nn0 := by
  simp [setup, hap, hnn]

theorem effectiveCodec_not_both {ex : Option PytorchCodec} {resize : String}
    {c : PytorchCodec} (h : (resize == "both") = false) :
    effectiveCodec ex resize c = c := by
  cases ex <;> simp [effectiveCodec, h]

theorem parLoop_eq (items : List Item) :
    ∀ acc, parLoop acc items = acc ++ items.filterMap itemSample := by
  induction items with
  | nil => intro acc; simp [parLoop]
  | cons it rest ih =>
    intro acc
    cases it <;> simp [parLoop, _star_fun, datasetParse, itemSample, ih]

theorem seqLoop_ok (items : List Item) (hmf : ∀ it ∈ items, it ≠ Item.missingFile) :
    ∀ acc, seqLoop acc items = .ok (acc ++ items.filterMap itemSample) := by
  induction items with
  | nil => intro acc; simp [seqLoop]
  | cons it rest ih =>
    intro acc
    have hrest : ∀ it ∈ rest, it ≠ Item.missingFile := fun x hx => hmf x (List.mem_cons_of_mem _ hx)
    cases it with
    | good s => simp [seqLoop, datasetParse, itemSample, ih hrest]
    | missingFile => exact absurd rfl (hmf _ (List.mem_cons_self _ _))
    | malformed => simp [seqLoop, datasetParse, itemSample, ih hrest]

theorem seqLoop_error (items : List Item) (hmf : Item.missingFile ∈ items) :
    ∀ acc, seqLoop acc items = .error ParseError.fileNotFound := by
  induction items with
  | nil => cases hmf
  | cons it rest ih =>
    intro acc
    cases it with
    | good s =>
      have : Item.missingFile ∈ rest := by
        cases List.mem_cons.mp hmf with
        | inl h => cases h
        | inr h => exact h
      simp [seqLoop, datasetParse, ih this]
    | missingFile => simp [seqLoop, datasetParse]
    | malformed =>
      have : Item.missingFile ∈ rest := by
        cases List.mem_cons.mp hmf with
        | inl h => cases h
        | inr h => exact h
      simp [seqLoop, datasetParse, ih this]

theorem effectiveCodec_of_not_explicit {ex : Option PytorchCodec} {r : String}
    {c : PytorchCodec} (h : (ex.isSome && (r == "both")) = false) :
    effectiveCodec ex r c = c := by
  cases ex with
  | none => rfl
  | some d =>
    simp only [Option.isSome_some, Bool.true_and] at h
    simp [effectiveCodec, h]

theorem finishSetup_view_codec_irrel (st : RecognitionModel) (ex : Option PytorchCodec)
    (nnA : Option TorchVGSLModel) (ts : GroundTruthDataset) (nn : TorchVGSLModel) :
    outcomeView (finishSetup { st with codec := ex, nn := nnA, train_set := ts } nn)
      = outcomeView (finishSetup { st with nn := nnA, train_set := ts } nn) := by
  unfold finishSetup
  dsimp only
  cases st.val_set.encode (some nn.codec) <;> rfl

theorem reuseCore_view_codec_irrel (st : RecognitionModel) (nn0 : TorchVGSLModel)
    (c1 : PytorchCodec) (ue : Bool) (ex : Option PytorchCodec) :
    outcomeView (reuseCore { st with codec := ex } nn0 c1 ue)
      = outcomeView (reuseCore st nn0 c1 ue) := by
  unfold reuseCore
  dsimp only
  cases st.train_set.encode (some c1) with
  | ok ts1 => apply finishSetup_view_codec_irrel
  | error e =>
    dsimp only
    split
    · rfl
    · split
      · rfl
      · split
        · cases GroundTruthDataset.encode
            { st.train_set with codec := some (codecFromAlphabet st.train_set.alphabet) }
            (some (c1.merge (codecFromAlphabet st.train_set.alphabet)).1) with
          | ok ts2 => apply finishSetup_view_codec_irrel
          | error e2 => rfl
        · rfl

/-! Claim theorems. -/

/-- C1: with a pretrained model loaded (no append point), policy `add` and
a training alphabet exceeding the codec, the code extends the codec by
exactly the missing clusters (`{"c"}` here, giving `{a:[0],b:[1],c:[2]}`)
and resizes the output layer to `max_label + 1 = 3` rows with the two old
rows preserved, but it then crashes with a `NameError` at line 456
(`self.train_set.dataset.encode(nn.codec)` reads the undefined name `nn`
instead of `self.nn`), so the training set is never encoded against the
resized codec: its dataset still holds no codec in the final state. -/
theorem setup_add_hits_name_error :
    setup { nn := some { codec := { c2l := [("a", [0]), ("b", [1])], strict := false },
                         rows := [some 0, some 1] },
            append := none, codec := none, resize := "add",
            train_set := { alphabet := ["a", "b", "c"], codec := none },
            val_set := { alphabet := ["a"], codec := none } }
    = { final := { nn := some { codec := { c2l := [("a", [0]), ("b", [1]), ("c", [2])],
                                           strict := true },
                                rows := [some 0, some 1, none] },
                   append := none, codec := none, resize := "add",
                   train_set := { alphabet := ["a", "b", "c"], codec := none },
                   val_set := { alphabet := ["a"], codec := none } },
        error := some SetupError.nameErrorNN } := by decide

/-- C6: with a pretrained model loaded and an append point specified, the
training set is encoded (building a fresh codec from the corpus because
`self.codec` is `None`), but `setup` then raises `UnboundLocalError` at
line 433: `spec = '[{} O1c{}]'.format(spec[1:-1], ...)` reads the
function-local `spec` before its first assignment (the fresh-model branch
at line 471 correctly uses `self.spec`). No stage is ever spliced onto
the network and the output layer is never sized. -/
theorem setup_append_hits_unbound_local :
    setup { nn := some { codec := { c2l := [("a", [0])], strict := false },
                         rows := [some 0] },
            append := some 1, codec := none, resize := "fail",
            train_set := { alphabet := ["x", "y"], codec := none },
            val_set := { alphabet := ["x"], codec := none } }
    = { final := { nn := some { codec := { c2l := [("a", [0])], strict := false },
                                rows := [some 0] },
                   append := some 1, codec := none, resize := "fail",
                   train_set := { alphabet := ["x", "y"],
                                  codec := some (codecFromAlphabet ["x", "y"]) },
                   val_set := { alphabet := ["x"], codec := none } },
        error := some SetupError.unboundLocalSpec } := by decide

/-- C3 counterexample: under policy `fail` with mismatching alphabet the
error is raised naming the difference, but the model is NOT left
unchanged: line 442 (`codec.strict = True`) has already mutated the
loaded model's codec in place, so the final `nn` differs from the initial
one (its codec's strict flag is now set). -/
theorem setup_fail_mutates_model_cex :
    (setup { nn := some { codec := { c2l := [("a", [0]), ("b", [1])], strict := false },
                          rows := [some 0, some 1] },
             append := none, codec := none, resize := "fail",
             train_set := { alphabet := ["a", "b", "c"], codec := none },
             val_set := { alphabet := ["a"], codec := none } }).error
      = some (SetupError.krakenInput ["c"])
    ∧ (setup { nn := some { codec := { c2l := [("a", [0]), ("b", [1])], strict := false },
                            rows := [some 0, some 1] },
               append := none, codec := none, resize := "fail",
               train_set := { alphabet := ["a", "b", "c"], codec := none },
               val_set := { alphabet := ["a"], codec := none } }).final.nn
      ≠ some { codec := { c2l := [("a", [0]), ("b", [1])], strict := false },
               rows := [some 0, some 1] } := by decide

/-- C4 counterexample: a grapheme that occurs only in the validation set
is NOT tolerated: on the load-without-append path line 442 has made the
model's codec strict, and line 477 encodes the validation set against
that strict codec, so the mismatch raises an uncaught
`KrakenEncodeException` and `setup` fails, contradicting "reported, not
fatal". -/
theorem setup_val_mismatch_fatal_cex :
    (setup { nn := some { codec := { c2l := [("a", [0])], strict := false },
                          rows := [some 0] },
             append := none, codec := none, resize := "fail",
             train_set := { alphabet := ["a"], codec := none },
             val_set := { alphabet := ["a", "b"], codec := none } }).error
      = some SetupError.krakenEncode := by decide

/-- C7 counterexample: an invalid policy value (`"bogus"`) does NOT abort
setup: when the training alphabet is compatible with the loaded model's
codec, the encode of line 445 succeeds, the `else` of line 466 is never
reached, and `setup` completes without any error; the policy value is
only ever inspected inside the alphabet-mismatch handler, long after
ground-truth parsing (which happened at dataset construction). -/
theorem setup_invalid_resize_completes_cex :
    (setup { nn := some { codec := { c2l := [("a", [0]), ("b", [1])], strict := false },
                          rows := [some 0, some 1] },
             append := none, codec := none, resize := "bogus",
             train_set := { alphabet := ["a"], codec := none },
             val_set := { alphabet := ["a", "b"], codec := none } }).error
      = none := by decide

/-- C8 counterexample: reconciling an already-compatible alphabet under
policy `add` leaves the mapping, the labels and the output layer alone,
but it is not literally a no-op on the codec: line 442 sets the strict
flag of the loaded model's codec, so the final `nn` differs from the
initial one. -/
theorem setup_compatible_not_literal_noop_cex :
    (setup { nn := some { codec := { c2l := [("a", [0])], strict := false },
                          rows := [some 0] },
             append := none, codec := none, resize := "add",
             train_set := { alphabet := ["a"], codec := none },
             val_set := { alphabet := ["a"], codec := none } }).error = none
    ∧ (setup { nn := some { codec := { c2l := [("a", [0])], strict := false },
                            rows := [some 0] },
               append := none, codec := none, resize := "add",
               train_set := { alphabet := ["a"], codec := none },
               val_set := { alphabet := ["a"], codec := none } }).final.nn
      ≠ some { codec := { c2l := [("a", [0])], strict := false },
               rows := [some 0] } := by decide

/-- C9 counterexample: in the sequential parsing path (`num_workers = 1`)
a single ground-truth item with a missing file aborts dataset
construction: the loop of lines 366-370 catches only
`KrakenInputException`, so the `FileNotFoundError` raised while parsing
the item propagates instead of being logged and dropped. -/
theorem build_dataset_seq_missing_file_cex :
    _build_dataset 1 "path" [Item.good 5, Item.missingFile, Item.good 7]
      = Except.error ParseError.fileNotFound := by decide

/-- C2: with a pretrained model loaded (no append point), policy `both`
and a training alphabet not covered by the effective codec, `setup` (a)
merges the effective codec (made strict in place on line 442) with the
codec built from the training corpus by `encode(None)`, (b) attaches the
merged codec to the model (`add_codec`, line 461), (c) encodes the
training set against the merged codec (line 464), and (d) resizes the
output layer to `merged.max_label + 1` rows while deleting the rows whose
indices `merge` returned (line 465) — and those indices are exactly the
labels of the effective codec's clusters that do not occur in the
training alphabet. -/
theorem setup_both_merge_resize (st : RecognitionModel) (nn0 : TorchVGSLModel)
    (codec1 merged : PytorchCodec) (deleted : List Nat)
    (hap : st.append = none) (hnn : st.nn = some nn0) (hrs : st.resize = "both")
    (hc1 : codec1 = { effectiveCodec st.codec st.resize nn0.codec with strict := true })
    (hm : merged = (codec1.merge (codecFromAlphabet st.train_set.alphabet)).1)
    (hd : deleted = (codec1.merge (codecFromAlphabet st.train_set.alphabet)).2)
    (hmiss : (st.train_set.alphabet.any fun a => ! codec1.keys.contains a) = true) :
    (setup st).final.nn
      = some ((nn0.add_codec merged).resize_output (merged.max_label + 1) deleted)
    ∧ (setup st).final.train_set.codec = some merged
    ∧ (∀ l, l ∈ deleted ↔ ∃ p ∈ codec1.c2l, p.1 ∉ st.train_set.alphabet ∧ l ∈ p.2) := by
  subst hm hd
  have hstrict : codec1.strict = true := by rw [hc1]
  have henc : st.train_set.encode (some codec1) = .error () :=
    encode_some_error _ _ hstrict hmiss
  have hcov : (st.train_set.alphabet.any fun a =>
      ! (codec1.merge (codecFromAlphabet st.train_set.alphabet)).1.keys.contains a) = false := by
    rw [List.any_eq_false]
    intro a ha
    have hmem : a ∈ (codec1.merge (codecFromAlphabet st.train_set.alphabet)).1.keys :=
      mem_merge_keys (mem_keys_codecFromAlphabet.mpr ha)
    simp [hmem]
  have henc2 : GroundTruthDataset.encode
      { st.train_set with codec := some (codecFromAlphabet st.train_set.alphabet) }
      (some (codec1.merge (codecFromAlphabet st.train_set.alphabet)).1)
      = .ok { st.train_set with
              codec := some (codec1.merge (codecFromAlphabet st.train_set.alphabet)).1 } :=
    encode_some_ok _ _ hcov
  have hrb : reuseBranch st nn0
      = reuseCore st nn0 codec1 (st.codec.isSome && (st.resize == "both")) := by
    rw [hc1]
    rfl
  have hb1 : (("both" : String) == "fail") = false := by decide
  have hb2 : (("both" : String) == "add") = false := by decide
  have hb3 : (("both" : String) == "both") = true := by decide
  rw [setup_eq_reuse st nn0 hap hnn, hrb]
  refine ⟨?_, ?_, ?_⟩
  · simp only [reuseCore, henc, hrs, hb1, hb2, hb3, henc2]
    simp only [Bool.false_eq_true, Bool.and_true, if_false, if_true]
    rw [finishSetup_final_nn]
    cases hc : st.codec <;> simp [TorchVGSLModel.add_codec, hc]
  · simp only [reuseCore, henc, hrs, hb1, hb2, hb3, henc2]
    simp only [Bool.false_eq_true, Bool.and_true, if_false, if_true]
    rw [finishSetup_final_train_set]
  · intro l
    show l ∈ labelsOf (codec1.c2l.filter fun p =>
        ! (codecFromAlphabet st.train_set.alphabet).keys.contains p.1) ↔ _
    rw [mem_labelsOf]
    constructor
    · rintro ⟨p, hp, hl⟩
      obtain ⟨hpmem, hpf⟩ := List.mem_filter.mp hp
      refine ⟨p, hpmem, ?_, hl⟩
      intro habs
      have hcont : (codecFromAlphabet st.train_set.alphabet).keys.contains p.1 = true :=
        contains_iff.mpr (mem_keys_codecFromAlphabet.mpr habs)
      rw [hcont] at hpf
      cases hpf
    · rintro ⟨p, hpmem, hnotin, hl⟩
      refine ⟨p, List.mem_filter.mpr ⟨hpmem, ?_⟩, hl⟩
      have hcont : (codecFromAlphabet st.train_set.alphabet).keys.contains p.1 = false := by
        cases hcc : (codecFromAlphabet st.train_set.alphabet).keys.contains p.1
        · rfl
        · exact absurd (mem_keys_codecFromAlphabet.mp (contains_iff.mp hcc)) hnotin
      rw [hcont]
      rfl

/-- Witness for `setup_both_merge_resize` at Scenario C of the spec:
codec `{a:[0],b:[1],x:[2]}`, training alphabet `{a,b,c}`, policy `both`;
the merged codec is `{a:[0],b:[1],c:[2]}` (strict), the model's layer is
resized to `max_label + 1 = 3` rows with row `2` (of the unused `x`)
deleted and a fresh row appended for `c`. -/
theorem setup_both_merge_resize_w :
    (setup { nn := some { codec := { c2l := [("a", [0]), ("b", [1]), ("x", [2])],
                                     strict := false },
                          rows := [some 0, some 1, some 2] },
             append := none, codec := none, resize := "both",
             train_set := { alphabet := ["a", "b", "c"], codec := none },
             val_set := { alphabet := ["a"], codec := none } }).final.nn
      = some ((TorchVGSLModel.add_codec
            { codec := { c2l := [("a", [0]), ("b", [1]), ("x", [2])], strict := false },
              rows := [some 0, some 1, some 2] }
            { c2l := [("a", [0]), ("b", [1]), ("c", [2])], strict := true }).resize_output
          (({ c2l := [("a", [0]), ("b", [1]), ("c", [2])], strict := true }
              : PytorchCodec).max_label + 1) [2]) :=
  (setup_both_merge_resize _ _
    { c2l := [("a", [0]), ("b", [1]), ("x", [2])], strict := true }
    { c2l := [("a", [0]), ("b", [1]), ("c", [2])], strict := true } [2]
    rfl rfl rfl (by decide) (by decide) (by decide) (by decide)).1

/-- C3 (amended): with a pretrained model loaded, policy `fail` and a
training alphabet not a subset of the codec's keys, `setup` raises
`KrakenInputException` naming exactly the set difference (training
alphabet minus codec keys), the codec's label mapping and the model's
output rows are untouched and the datasets are left unchanged — but the
codec is not wholly unchanged: its strict flag has been set by the
in-place mutation of line 442. -/
theorem setup_fail_raises_mismatch (st : RecognitionModel) (nn0 : TorchVGSLModel)
    (hap : st.append = none) (hnn : st.nn = some nn0) (hrs : st.resize = "fail")
    (hmiss : (st.train_set.alphabet.any fun a => ! nn0.codec.keys.contains a) = true) :
    (setup st).error
      = some (SetupError.krakenInput
          (st.train_set.alphabet.filter fun a => ! nn0.codec.keys.contains a))
    ∧ (∀ a, a ∈ (st.train_set.alphabet.filter fun a => ! nn0.codec.keys.contains a)
          ↔ a ∈ st.train_set.alphabet ∧ a ∉ nn0.codec.keys)
    ∧ (setup st).final.nn = some { nn0 with codec := { nn0.codec with strict := true } }
    ∧ (setup st).final.train_set = st.train_set
    ∧ (setup st).final.val_set = st.val_set := by
  have hb : (st.resize == "both") = false := by
    rw [hrs]
    decide
  have hbf : (st.resize == "fail") = true := by
    rw [hrs]
    decide
  have hue : (st.codec.isSome && (st.resize == "both")) = false := by
    rw [hb, Bool.and_false]
  have henc : st.train_set.encode
      (some ({ nn0.codec with strict := true } : PytorchCodec)) = .error () :=
    encode_some_error _ _ rfl hmiss
  have hrb : reuseBranch st nn0
      = reuseCore st nn0 { nn0.codec with strict := true } false := by
    unfold reuseBranch
    rw [effectiveCodec_not_both hb, hue]
  rw [setup_eq_reuse st nn0 hap hnn, hrb]
  refine ⟨?_, ?_, ?_, ?_, ?_⟩
  · simp only [reuseCore, henc, hbf, if_true, Bool.false_eq_true, if_false]
    rfl
  · intro a
    rw [List.mem_filter]
    constructor
    · rintro ⟨h1, h2⟩
      refine ⟨h1, fun hmem => ?_⟩
      rw [contains_iff.mpr hmem] at h2
      exact Bool.noConfusion h2
    · rintro ⟨h1, h2⟩
      refine ⟨h1, ?_⟩
      cases hcc : nn0.codec.keys.contains a
      · rfl
      · exact absurd (contains_iff.mp hcc) h2
  · simp only [reuseCore, henc, hbf, if_true, Bool.false_eq_true, if_false]
  · simp only [reuseCore, henc, hbf, if_true, Bool.false_eq_true, if_false]
  · simp only [reuseCore, henc, hbf, if_true, Bool.false_eq_true, if_false]

/-- Witness for `setup_fail_raises_mismatch`: codec `{a:[0]}`, training
alphabet `{a,c}`, policy `fail`; the raised error names `{c}`. -/
theorem setup_fail_raises_mismatch_w :
    (setup { nn := some { codec := { c2l := [("a", [0])], strict := false },
                          rows := [some 0] },
             append := none, codec := none, resize := "fail",
             train_set := { alphabet := ["a", "c"], codec := none },
             val_set := { alphabet := ["a"], codec := none } }).error
      = some (SetupError.krakenInput ["c"]) :=
  (setup_fail_raises_mismatch _
    { codec := { c2l := [("a", [0])], strict := false }, rows := [some 0] }
    rfl rfl rfl (by decide)).1

/-- C4 (amended): whenever `setup` falls through reconciliation, the
validation set is encoded against the model's final codec (line 477) and
never reconciled on its own — but the strict flag is NOT relaxed there.
On the load-without-append path the effective codec has been made strict
(line 442), so a validation-only grapheme makes that encode raise an
uncaught `KrakenEncodeException`, which is fatal rather than merely
reported; only the fresh-model path (whose corpus-built codec is
non-strict) tolerates validation-only graphemes. -/
theorem setup_val_encode_final_codec (st : RecognitionModel) :
    (∀ nn0 : TorchVGSLModel, st.append = none → st.nn = some nn0 →
      (st.codec.isSome && (st.resize == "both")) = false →
      (st.train_set.alphabet.any fun a => ! nn0.codec.keys.contains a) = false →
      (((st.val_set.alphabet.any fun a => ! nn0.codec.keys.contains a) = false →
          (setup st).error = none
          ∧ (setup st).final.val_set.codec = some { nn0.codec with strict := true })
        ∧ ((st.val_set.alphabet.any fun a => ! nn0.codec.keys.contains a) = true →
          (setup st).error = some SetupError.krakenEncode)))
    ∧ (st.append = none → st.nn = none → st.codec = none →
        (setup st).error = none
        ∧ (setup st).final.val_set.codec
            = some (codecFromAlphabet st.train_set.alphabet)) := by
  constructor
  · intro nn0 hap hnn hue hcompat
    have heff : effectiveCodec st.codec st.resize nn0.codec = nn0.codec :=
      effectiveCodec_of_not_explicit hue
    have hrb : reuseBranch st nn0
        = reuseCore st nn0 { nn0.codec with strict := true } false := by
      unfold reuseBranch
      rw [heff, hue]
    have henc : st.train_set.encode
        (some ({ nn0.codec with strict := true } : PytorchCodec))
        = .ok { st.train_set with codec := some { nn0.codec with strict := true } } :=
      encode_some_ok _ _ hcompat
    rw [setup_eq_reuse st nn0 hap hnn, hrb]
    constructor
    · intro hval
      have hvenc : st.val_set.encode
          (some ({ nn0.codec with strict := true } : PytorchCodec))
          = .ok { st.val_set with codec := some { nn0.codec with strict := true } } :=
        encode_some_ok _ _ hval
      simp only [reuseCore, henc, Bool.false_eq_true, if_false, finishSetup, hvenc]
      constructor <;> trivial
    · intro hval
      have hvenc : st.val_set.encode
          (some ({ nn0.codec with strict := true } : PytorchCodec)) = .error () :=
        encode_some_error _ _ rfl hval
      simp only [reuseCore, henc, Bool.false_eq_true, if_false, finishSetup, hvenc]
  · intro hap hnn hcodec
    have hvenc : st.val_set.encode (some (codecFromAlphabet st.train_set.alphabet))
        = .ok { st.val_set with codec := some (codecFromAlphabet st.train_set.alphabet) } :=
      encode_some_ok_nonstrict _ _ rfl
    simp only [setup, hap, hnn, hcodec, Option.getD_none, bne_self_eq_false,
      Bool.false_eq_true, if_false, GroundTruthDataset.encode,
      GroundTruthDataset.resolvedCodec, Option.getD_some, finishSetup, hvenc]
    constructor <;> trivial

/-- Witness for `setup_val_encode_final_codec`: codec `{d:[0]}` (loaded,
initially non-strict), training alphabet `{d}`, validation alphabet
`{d,e}`, policy `fail`; the validation encode against the now-strict
codec is fatal. -/
theorem setup_val_encode_final_codec_w :
    (setup { nn := some { codec := { c2l := [("d", [0])], strict := false },
                          rows := [some 0] },
             append := none, codec := none, resize := "fail",
             train_set := { alphabet := ["d"], codec := none },
             val_set := { alphabet := ["d", "e"], codec := none } }).error
      = some SetupError.krakenEncode :=
  ((setup_val_encode_final_codec _).1
    { codec := { c2l := [("d", [0])], strict := false }, rows := [some 0] }
    rfl rfl (by decide) (by decide)).2 (by decide)

/-- C5: on the load-without-append path, an explicitly supplied codec is
honored as the effective codec only under policy `both` (line 440). For
any other policy the run is observationally identical (error, final
model, final datasets) to the same run with no explicit codec at all,
and the effective codec is the loaded model's own; under `both` with an
explicit codec, the explicit codec is the effective one. -/
theorem setup_codec_override_only_both (st : RecognitionModel) (nn0 : TorchVGSLModel)
    (c : PytorchCodec)
    (hap : st.append = none) (hnn : st.nn = some nn0) :
    ((st.resize == "both") = false →
      outcomeView (setup st) = outcomeView (setup { st with codec := none }))
    ∧ effectiveCodec (some c) "both" nn0.codec = c
    ∧ ((st.resize == "both") = false →
        effectiveCodec st.codec st.resize nn0.codec = nn0.codec)
    ∧ effectiveCodec none st.resize nn0.codec = nn0.codec := by
  refine ⟨?_, ?_, ?_, ?_⟩
  · intro hb
    have hue : (st.codec.isSome && (st.resize == "both")) = false := by
      rw [hb, Bool.and_false]
    have h1 : setup st = reuseCore st nn0 { nn0.codec with strict := true } false := by
      rw [setup_eq_reuse st nn0 hap hnn]
      unfold reuseBranch
      rw [effectiveCodec_not_both hb, hue]
    have h2 : setup { st with codec := none }
        = reuseCore { st with codec := none } nn0 { nn0.codec with strict := true } false := by
      rw [setup_eq_reuse { st with codec := none } nn0 hap hnn]
      rfl
    rw [h1, h2]
    exact (reuseCore_view_codec_irrel st nn0 _ false none).symm
  · rfl
  · exact fun hb => effectiveCodec_not_both hb
  · rfl

/-- Witness for `setup_codec_override_only_both`: under policy `fail` a
run with an explicitly supplied codec `{z:[0]}` is observationally the
same as the run without it. -/
theorem setup_codec_override_only_both_w :
    outcomeView (setup { nn := some { codec := { c2l := [("a", [0])], strict := false },
                                      rows := [some 0] },
                         append := none,
                         codec := some { c2l := [("z", [0])], strict := false },
                         resize := "fail",
                         train_set := { alphabet := ["a"], codec := none },
                         val_set := { alphabet := ["a"], codec := none } })
      = outcomeView (setup { nn := some { codec := { c2l := [("a", [0])], strict := false },
                                          rows := [some 0] },
                             append := none, codec := none, resize := "fail",
                             train_set := { alphabet := ["a"], codec := none },
                             val_set := { alphabet := ["a"], codec := none } }) :=
  (setup_codec_override_only_both _
    { codec := { c2l := [("a", [0])], strict := false }, rows := [some 0] }
    { c2l := [("z", [0])], strict := false }
    rfl rfl).1 (by decide)

/-- C7 (amended): an invalid policy value raises a fatal
`ValueError` only when a loaded model's codec fails to encode the
training alphabet: the check of lines 466-467 lives inside the
alphabet-mismatch handler. It does not abort setup "immediately, before
any parsing": ground-truth parsing happens earlier (at dataset
construction), and with a compatible alphabet the invalid value is never
inspected at all (see `setup_invalid_resize_completes_cex`). -/
theorem setup_invalid_resize_raises_on_mismatch (st : RecognitionModel)
    (nn0 : TorchVGSLModel)
    (hap : st.append = none) (hnn : st.nn = some nn0)
    (h1 : (st.resize == "fail") = false) (h2 : (st.resize == "add") = false)
    (h3 : (st.resize == "both") = false)
    (hmiss : (st.train_set.alphabet.any fun a => ! nn0.codec.keys.contains a) = true) :
    (setup st).error = some (SetupError.valueError st.resize) := by
  have hue : (st.codec.isSome && (st.resize == "both")) = false := by
    rw [h3, Bool.and_false]
  have henc : st.train_set.encode
      (some ({ nn0.codec with strict := true } : PytorchCodec)) = .error () :=
    encode_some_error _ _ rfl hmiss
  have hrb : reuseBranch st nn0
      = reuseCore st nn0 { nn0.codec with strict := true } false := by
    unfold reuseBranch
    rw [effectiveCodec_not_both h3, hue]
  rw [setup_eq_reuse st nn0 hap hnn, hrb]
  simp only [reuseCore, henc, h1, h2, h3, Bool.false_eq_true, if_false]

/-- Witness for `setup_invalid_resize_raises_on_mismatch`: policy
`"bogus"` with training alphabet `{a,c}` against codec `{a:[0]}`. -/
theorem setup_invalid_resize_raises_on_mismatch_w :
    (setup { nn := some { codec := { c2l := [("a", [0])], strict := false },
                          rows := [some 0] },
             append := none, codec := none, resize := "bogus",
             train_set := { alphabet := ["a", "c"], codec := none },
             val_set := { alphabet := ["a"], codec := none } }).error
      = some (SetupError.valueError "bogus") :=
  setup_invalid_resize_raises_on_mismatch _
    { codec := { c2l := [("a", [0])], strict := false }, rows := [some 0] }
    rfl rfl (by decide) (by decide) (by decide) (by decide)

/-- C8 (amended): reconciling an already-compatible training alphabet
under policy `add` or `both` deletes no labels and does not resize the
output layer: the encode of line 445 succeeds, so the whole `except`
handler is skipped and the final model keeps its rows; its codec's label
mapping is unchanged too, though the strict flag has been set in place
(line 442) whenever the effective codec was the model's own. The
training set ends up encoded against that (strictified) effective
codec. -/
theorem setup_compatible_noop (st : RecognitionModel) (nn0 : TorchVGSLModel)
    (hap : st.append = none) (hnn : st.nn = some nn0)
    (_hrs : st.resize = "add" ∨ st.resize = "both")
    (hcompat : (st.train_set.alphabet.any fun a =>
        ! (effectiveCodec st.codec st.resize nn0.codec).keys.contains a) = false) :
    (setup st).final.nn
      = some (if (st.codec.isSome && (st.resize == "both")) = true then nn0
              else { nn0 with codec :=
                { effectiveCodec st.codec st.resize nn0.codec with strict := true } })
    ∧ (setup st).final.train_set
      = { st.train_set with
          codec := some ({ effectiveCodec st.codec st.resize nn0.codec with strict := true } : PytorchCodec) } := by
  have henc : st.train_set.encode
      (some ({ effectiveCodec st.codec st.resize nn0.codec with strict := true }
        : PytorchCodec))
      = .ok { st.train_set with
          codec := some ({ effectiveCodec st.codec st.resize nn0.codec with strict := true } : PytorchCodec) } :=
    encode_some_ok _ _ hcompat
  rw [setup_eq_reuse st nn0 hap hnn]
  unfold reuseBranch
  constructor
  · simp only [reuseCore, henc]
    rw [finishSetup_final_nn]
  · simp only [reuseCore, henc]
    rw [finishSetup_final_train_set]

/-- Witness for `setup_compatible_noop`: codec `{a:[0],b:[1]}`, training
alphabet `{a}`, policy `add`; the model keeps its two rows and its
mapping, only the strict flag is set. -/
theorem setup_compatible_noop_w :
    (setup { nn := some { codec := { c2l := [("a", [0]), ("b", [1])], strict := false },
                          rows := [some 0, some 1] },
             append := none, codec := none, resize := "add",
             train_set := { alphabet := ["a"], codec := none },
             val_set := { alphabet := ["a"], codec := none } }).final.nn
      = some { codec := { c2l := [("a", [0]), ("b", [1])], strict := true },
               rows := [some 0, some 1] } :=
  (setup_compatible_noop _
    { codec := { c2l := [("a", [0]), ("b", [1])], strict := false },
      rows := [some 0, some 1] }
    rfl rfl (Or.inl rfl) (by decide)).1

/-- Guard of line 359 in propositional form: the worker-pool path is
taken exactly when more than one worker is configured and the format is
not `binary` (for a non-negative worker count the Python truthiness
conjunct `num_workers and ...` adds nothing). -/
theorem build_guard_iff (numWorkers : Nat) (formatType : String) :
    (((numWorkers != 0) && decide (numWorkers > 1)) && (formatType != "binary")) = true
      ↔ (numWorkers > 1 ∧ formatType ≠ "binary") := by
  simp only [Bool.and_eq_true, bne_iff_ne, decide_eq_true_eq]
  constructor
  · rintro ⟨⟨_, h⟩, hf⟩
    exact ⟨h, hf⟩
  · rintro ⟨h, hf⟩
    exact ⟨⟨by omega, h⟩, hf⟩

/-- C9 (amended): in the worker-pool path every failed item (missing
file or malformed input) is dropped and the surviving samples are kept,
and the same holds in the sequential path for malformed items
(`KrakenInputException` is caught at lines 369-370) — but in the
sequential path a missing-file item is fatal: `FileNotFoundError` is not
caught there, so dataset construction aborts (the parallel path's
`_star_fun` catches both kinds). -/
theorem build_dataset_drop_behavior (numWorkers : Nat) (formatType : String)
    (items : List Item) :
    (numWorkers > 1 → formatType ≠ "binary" →
      _build_dataset numWorkers formatType items = .ok (items.filterMap itemSample))
    ∧ ((∀ it ∈ items, it ≠ Item.missingFile) →
      _build_dataset numWorkers formatType items = .ok (items.filterMap itemSample))
    ∧ (¬ (numWorkers > 1 ∧ formatType ≠ "binary") → Item.missingFile ∈ items →
      _build_dataset numWorkers formatType items = .error ParseError.fileNotFound) := by
  refine ⟨?_, ?_, ?_⟩
  · intro hnw hft
    have hguard := (build_guard_iff numWorkers formatType).mpr ⟨hnw, hft⟩
    simp only [_build_dataset, hguard, if_true]
    rw [parLoop_eq]
    simp
  · intro hmf
    by_cases hguard :
        ((((numWorkers != 0) && decide (numWorkers > 1)) && (formatType != "binary")) = true)
    · simp only [_build_dataset, hguard, if_true]
      rw [parLoop_eq]
      simp
    · rw [Bool.not_eq_true] at hguard
      simp only [_build_dataset, hguard, Bool.false_eq_true, if_false]
      rw [seqLoop_ok items hmf]
      simp
  · intro hng hmem
    have hg : (((numWorkers != 0) && decide (numWorkers > 1)) && (formatType != "binary"))
        = false := by
      rw [← Bool.not_eq_true]
      exact fun h => hng ((build_guard_iff numWorkers formatType).mp h)
    simp only [_build_dataset, hg, Bool.false_eq_true, if_false]
    exact seqLoop_error items hmem []

/-- Witness for `build_dataset_drop_behavior`: two workers on a non-binary
format drop a malformed item and keep the good one. -/
theorem build_dataset_drop_behavior_w :
    _build_dataset 2 "path" [Item.good 3, Item.malformed]
      = .ok ([Item.good 3, Item.malformed].filterMap itemSample) :=
  (build_dataset_drop_behavior 2 "path" [Item.good 3, Item.malformed]).1
    (by decide) (by decide)

/-- C10: with `format_type = 'binary'` the items are added by the
sequential in-order loop whatever the worker count; the worker-pool path
is taken exactly when `num_workers > 1` and the format is not `binary`;
and for parsable binary items the dataset receives the samples in the
given order. -/
theorem build_dataset_binary_sequential (numWorkers : Nat) (formatType : String)
    (items : List Item) :
    _build_dataset numWorkers "binary" items = seqLoop [] items
    ∧ (¬ (numWorkers > 1 ∧ formatType ≠ "binary") →
      _build_dataset numWorkers formatType items = seqLoop [] items)
    ∧ (numWorkers > 1 → formatType ≠ "binary" →
      _build_dataset numWorkers formatType items = .ok (parLoop [] items))
    ∧ ((∀ it ∈ items, it ≠ Item.missingFile) →
      _build_dataset numWorkers "binary" items = .ok (items.filterMap itemSample)) := by
  have hbin : ((("binary" : String) != "binary") = false) := by decide
  refine ⟨?_, ?_, ?_, ?_⟩
  · simp only [_build_dataset, hbin, Bool.and_false, Bool.false_eq_true, if_false]
  · intro hng
    have hg : (((numWorkers != 0) && decide (numWorkers > 1)) && (formatType != "binary"))
        = false := by
      rw [← Bool.not_eq_true]
      exact fun h => hng ((build_guard_iff numWorkers formatType).mp h)
    simp only [_build_dataset, hg, Bool.false_eq_true, if_false]
  · intro hnw hft
    have hguard := (build_guard_iff numWorkers formatType).mpr ⟨hnw, hft⟩
    simp only [_build_dataset, hguard, if_true]
  · intro hmf
    simp only [_build_dataset, hbin, Bool.and_false, Bool.false_eq_true, if_false]
    rw [seqLoop_ok items hmf]
    simp

/-- Witness for `build_dataset_binary_sequential`: binary format with
eight workers still adds sequentially, in order, dropping the malformed
item. -/
theorem build_dataset_binary_sequential_w :
    _build_dataset 8 "binary" [Item.good 4, Item.malformed, Item.good 6]
      = .ok ([Item.good 4, Item.malformed, Item.good 6].filterMap itemSample) :=
  (build_dataset_binary_sequential 8 "path" [Item.good 4, Item.malformed, Item.good 6]).2.2.2
    (by decide)

end Kraken
